import Mathlib

/-!
# FileExplorer: a shallow embedding of `fileexplorer.cpp`

The program is a thin layer of wrappers around POSIX file-system calls that
share one piece of state, `currentPath`.  The development has two layers.

* `Posix`: an executable model of the operating-system interface the program
  calls (`stat`, `mkdir`, `rmdir`, `unlink`, `rename`, `chdir`, `chmod`,
  `opendir`/`readdir`, and the `ifstream`/`ofstream` opens and stream copy).
  The file system is a finite map from canonical locations to nodes, with
  symbolic links, owners and permission bits (sticky and set-group-ID bits
  included), a `umask`, devices (mount points) and a per-device bound on file
  size.
* `FileExplorer`: the member functions of the class, translated one by one
  from the source, with the console output returned as a list of coloured
  lines.

Conventions: a `std::string` is a Lean `String` in which every `Char` stands
for one C `char`, so that `String`'s lexicographic order is the byte-wise order
of `std::string::operator<` and `String.length` is the length in bytes.

The model of the operating system is sequential (nothing else touches the file
system while a member function runs) and leaves out what the program never
looks at: hard links, special files, supplementary groups, time stamps.  A
system call either fails, leaving the state as it was, or has its full effect;
the one partial effect is a stream copy onto a device that cannot hold the
whole file.  The size `stat` reports for a directory depends on the file system
and is given as 0.  The helpers `getPermissionsString`, `formatFileSize` and
`getModificationTime` only format the columns of the detailed listing; a row of
the listing carries the `stat` result they are rendered from instead of the
rendered text.
-/

namespace Posix

/-- Canonical location of an object: the component names leading to it from the
root directory, which is `[]`. -/
abbrev Key := List String

/-- An object stored in the file system.  `mode` holds the permission bits and
`uid` the owner; `dev` is the device a directory lives on (a directory whose
`dev` differs from its parent's is a mount point); files and links live on
their parent's device. -/
inductive Node where
  | reg (mode uid gid : Nat) (bytes : List Nat)
  | dir (mode uid gid dev : Nat)
  | lnk (uid : Nat) (target : String)
deriving DecidableEq, Repr

/-- The state of the operating system as far as the program can observe it. -/
structure World where
  /-- The objects, in directory-listing order. -/
  fs : List (Key × Node)
  /-- Largest size of a single file, per device; a device not listed is unbounded. -/
  limits : List (Nat × Nat)
  /-- The file-mode creation mask of the process. -/
  umask : Nat
  /-- Effective user id of the process. -/
  euid : Nat
  /-- Effective group id of the process. -/
  egid : Nat
  /-- The working directory of the process, as set by `chdir`. -/
  cwd : Key
  /-- The lines still to be read from standard input. -/
  stdin : List String
deriving DecidableEq, Repr

/-- The fields of `struct stat` used by the program. -/
structure Stat where
  st_mode : Nat
  st_uid : Nat
  st_gid : Nat
  st_size : Nat
deriving DecidableEq, Repr

/-- Length bound on path names: a path of `PATH_MAX` or more characters is
refused by every call with `ENAMETOOLONG`. -/
def PATH_MAX : Nat := 4096

/-- Length bound on one component of a path: a longer one is refused with
`ENAMETOOLONG`. -/
def NAME_MAX : Nat := 255

/-- Number of symbolic links one path resolution may follow before `ELOOP`. -/
def MAXSYMLINKS : Nat := 40

/-- The sticky bit of a directory (restricted deletion). -/
def S_ISVTX : Nat := 0o1000

/-- The set-group-ID bit. -/
def S_ISGID : Nat := 0o2000

def S_IFMT : Nat := 0o170000
def S_IFDIR : Nat := 0o040000
def S_IFREG : Nat := 0o100000
def S_IXUSR : Nat := 0o100

/-- The macro `S_ISDIR`. -/
def S_ISDIR (m : Nat) : Bool := m &&& S_IFMT == S_IFDIR

/-- First node stored under a key. -/
def lookup : List (Key × Node) → Key → Option Node
  | [], _ => none
  | (k, n) :: rest, key => if k = key then some n else lookup rest key

/-- Remove every entry stored under a key. -/
def remove (fs : List (Key × Node)) (key : Key) : List (Key × Node) :=
  fs.filter (fun e => decide (e.1 ≠ key))

/-- Replace the node stored under a key, keeping its place in the listing. -/
def replace (fs : List (Key × Node)) (key : Key) (n : Node) : List (Key × Node) :=
  fs.map (fun e => if e.1 = key then (e.1, n) else e)

/-- Names of the entries of the directory at `key`, in listing order. -/
def childNames (fs : List (Key × Node)) (key : Key) : List String :=
  fs.filterMap (fun e =>
    match e.1.getLast? with
    | some name => if e.1.dropLast = key then some name else none
    | none => none)

/-- Whether the directory at `key` has at least one entry. -/
def hasChild (fs : List (Key × Node)) (key : Key) : Bool :=
  !(childNames fs key).isEmpty

/-- Split the characters of a path at `'/'`, dropping empty components.
`acc` holds the current component, reversed. -/
def compsAux : List Char → List Char → List String
  | acc, [] => if acc.isEmpty then [] else [String.mk acc.reverse]
  | acc, c :: cs =>
    if c = '/' then
      (if acc.isEmpty then compsAux [] cs else String.mk acc.reverse :: compsAux [] cs)
    else compsAux (c :: acc) cs

/-- The components of a path. -/
def comps (p : String) : List String := compsAux [] p.data

/-- Whether a path starts at the root. -/
def isAbsolute (p : String) : Bool := p.data.head? == some '/'

/-- Whether a path ends in a slash (it then has to name a directory). -/
def endsInSlash (p : String) : Bool := p.data.getLast? == some '/'

/-- Whether the last component of a path is `.` or `..`. -/
def lastDot (p : String) : Bool :=
  match (comps p).getLast? with
  | some c => c == "." || c == ".."
  | none => false

/-- Access check of the process against the permission bits of an object;
`bit` is 4 (read), 2 (write) or 1 (execute/search).  The superuser passes. -/
def permits (w : World) (mode uid gid bit : Nat) : Bool :=
  if w.euid = 0 then true
  else if w.euid = uid then mode &&& (bit * 64) != 0
  else if w.egid = gid then mode &&& (bit * 8) != 0
  else mode &&& bit != 0

/-- `mode & ~umask`, on the twelve mode bits. -/
def maskOff (mode umask : Nat) : Nat :=
  (mode &&& 0o7777) &&& (0o7777 ^^^ (umask &&& 0o7777))

/-- Outcome of resolving a path. -/
inductive Res where
  /-- The path names the object `n` stored at `key`. -/
  | found (key : Key) (n : Node)
  /-- Every directory on the way exists and may be searched, and the last
  component `name` is absent from the directory `parent`. -/
  | missing (parent : Key) (name : String)
  /-- Resolution failed (`ENOENT`, `ENOTDIR`, `EACCES`, `ELOOP`, `ENAMETOOLONG`). -/
  | err
deriving DecidableEq, Repr

/-- Walk the components `rest` starting in the directory `cur`.  `follow` tells
whether a symbolic link in the last position is followed; `links` counts the
links that may still be followed; the first argument bounds the number of
steps. -/
def walk (w : World) (follow : Bool) : Nat → Nat → Key → List String → Res
  | 0, _, _, _ => .err
  | _ + 1, _, cur, [] =>
    match lookup w.fs cur with
    | some n => .found cur n
    | none => .err
  | fuel + 1, links, cur, c :: rest =>
    match lookup w.fs cur with
    | some (.dir mode uid gid _) =>
      if !permits w mode uid gid 1 then .err
      else if c = "." then walk w follow fuel links cur rest
      else if c = ".." then walk w follow fuel links cur.dropLast rest
      else if decide (NAME_MAX < c.length) then .err
      else
        match lookup w.fs (cur ++ [c]) with
        | none => if rest.isEmpty then .missing cur c else .err
        | some (.lnk u t) =>
          if rest.isEmpty && !follow then .found (cur ++ [c]) (.lnk u t)
          else if links = 0 then .err
          else if t.data.isEmpty then .err
          else walk w follow fuel (links - 1) (if isAbsolute t then [] else cur) (comps t ++ rest)
        | some _ => walk w follow fuel links (cur ++ [c]) rest
    | _ => .err

/-- Enough steps for a path of `PATH_MAX` characters with `MAXSYMLINKS`
expansions of that size. -/
def walkFuel : Nat := (MAXSYMLINKS + 1) * PATH_MAX

/-- Whether a node is a directory. -/
def Node.isDir : Node → Bool
  | .dir _ _ _ _ => true
  | _ => false

/-- Path resolution as performed by every system call. -/
def resolve (w : World) (follow : Bool) (p : String) : Res :=
  if p.data.isEmpty || decide (PATH_MAX ≤ p.length) then .err
  else
    match walk w (follow || endsInSlash p) walkFuel MAXSYMLINKS
        (if isAbsolute p then [] else w.cwd) (comps p) with
    | .found k n => if endsInSlash p && !n.isDir then .err else .found k n
    | r => r

/-- The call `stat(2)`: follows symbolic links. -/
def stat (w : World) (p : String) : Option Stat :=
  match resolve w true p with
  | .found _ (.reg mode uid gid bytes) =>
    some { st_mode := S_IFREG ||| (mode &&& 0o7777), st_uid := uid, st_gid := gid,
           st_size := bytes.length }
  | .found _ (.dir mode uid gid _) =>
    some { st_mode := S_IFDIR ||| (mode &&& 0o7777), st_uid := uid, st_gid := gid,
           st_size := 0 }
  | _ => none

/-- May the process add or remove entries in the directory at `key`? -/
def dirWritable (w : World) (key : Key) : Bool :=
  match lookup w.fs key with
  | some (.dir mode uid gid _) => permits w mode uid gid 2
  | _ => false

/-- Device of the directory at `key`. -/
def devOf (w : World) (key : Key) : Option Nat :=
  match lookup w.fs key with
  | some (.dir _ _ _ dev) => some dev
  | _ => none

/-- Owner of an object. -/
def Node.owner : Node → Nat
  | .reg _ uid _ _ => uid
  | .dir _ uid _ _ => uid
  | .lnk uid _ => uid

/-- May the process take the entry `n` out of the directory at `parent`
(to remove it, to rename it away, or to replace it)?  This needs write
permission on the directory and, when the directory is sticky, that the
process owns the entry or the directory, or is the superuser. -/
def mayDelete (w : World) (parent : Key) (n : Node) : Bool :=
  match lookup w.fs parent with
  | some (.dir mode uid gid _) =>
    permits w mode uid gid 2 &&
      (mode &&& S_ISVTX == 0 || w.euid == 0 || w.euid == uid || w.euid == n.owner)
  | _ => false

/-- Group of an object created in a directory of mode `pmode` and group `pgid`:
the group of the directory when it has the set-group-ID bit, otherwise the
effective group of the process. -/
def newGid (w : World) (pmode pgid : Nat) : Nat :=
  if pmode &&& S_ISGID != 0 then pgid else w.egid

/-- The call `mkdir(2)`: the new directory gets the mode `mode & ~umask`, and
the set-group-ID bit of its parent. -/
def mkdir (w : World) (p : String) (mode : Nat) : Option World :=
  match resolve w false p with
  | .missing parent name =>
    match lookup w.fs parent with
    | some (.dir pmode puid pgid dev) =>
      if permits w pmode puid pgid 2 then
        some { w with fs := w.fs ++ [(parent ++ [name],
                 .dir (maskOff (mode &&& 0o1777) w.umask ||| (pmode &&& S_ISGID))
                   w.euid (newGid w pmode pgid) dev)] }
      else none
    | _ => none
  | _ => none

/-- The call `rmdir(2)`: removes an empty directory that is not a mount
point. -/
def rmdir (w : World) (p : String) : Option World :=
  match resolve w false p with
  | .found key (.dir mode uid gid dev) =>
    if lastDot p || key.isEmpty || hasChild w.fs key then none
    else if !mayDelete w key.dropLast (.dir mode uid gid dev) then none
    else if devOf w key.dropLast != some dev then none
    else some { w with fs := remove w.fs key }
  | _ => none

/-- The call `unlink(2)`: removes a name that is not a directory; a symbolic
link is removed itself, not its target. -/
def unlink (w : World) (p : String) : Option World :=
  match resolve w false p with
  | .found _ (.dir _ _ _ _) => none
  | .found key n =>
    if mayDelete w key.dropLast n then some { w with fs := remove w.fs key } else none
  | _ => none

/-- The call `chdir(2)`: needs search permission on the directory itself. -/
def chdir (w : World) (p : String) : Option World :=
  match resolve w true p with
  | .found key (.dir mode uid gid _) =>
    if permits w mode uid gid 1 then some { w with cwd := key } else none
  | _ => none

/-- The call `chmod(2)`: sets the twelve mode bits, unaffected by the umask. -/
def chmod (w : World) (p : String) (mode : Nat) : Option World :=
  match resolve w true p with
  | .found key (.reg _ uid gid bytes) =>
    if w.euid = 0 || w.euid = uid then
      some { w with fs := replace w.fs key (.reg (mode &&& 0o7777) uid gid bytes) }
    else none
  | .found key (.dir _ uid gid dev) =>
    if w.euid = 0 || w.euid = uid then
      some { w with fs := replace w.fs key (.dir (mode &&& 0o7777) uid gid dev) }
    else none
  | _ => none

/-- The calls `opendir(3)` and `readdir(3)`: the names the directory stream
yields, `.` and `..` included. -/
def opendir (w : World) (p : String) : Option (List String) :=
  match resolve w true p with
  | .found key (.dir mode uid gid _) =>
    if permits w mode uid gid 4 then some ("." :: ".." :: childNames w.fs key) else none
  | _ => none

/-- Re-root the entries at or below `old` under `new`. -/
def rekey (fs : List (Key × Node)) (old new : Key) : List (Key × Node) :=
  fs.map (fun e => if old.isPrefixOf e.1 then (new ++ e.1.drop old.length, e.2) else e)

/-- Whether `rename` may put the object `no`, found at `ko`, in the place `kn`,
which holds `existing`.  A directory goes only onto a free name or an empty
directory, anything else only onto a free name or a non-directory; a mount
point is neither moved nor replaced; an entry that is replaced must be one the
process may take out of its directory; and a directory that changes parent
must be writable, because its `..` entry is rewritten. -/
def renameFits (w : World) (ko kn : Key) (no : Node) (existing : Option Node) : Bool :=
  match no, existing with
  | .dir mode uid gid d, some (.dir m2 u2 g2 d2) =>
    !hasChild w.fs kn && devOf w ko.dropLast == some d && devOf w kn.dropLast == some d2 &&
      mayDelete w kn.dropLast (.dir m2 u2 g2 d2) &&
      (decide (ko.dropLast = kn.dropLast) || permits w mode uid gid 2)
  | .dir _ _ _ _, some _ => false
  | .dir mode uid gid d, none =>
    dirWritable w kn.dropLast && devOf w ko.dropLast == some d &&
      (decide (ko.dropLast = kn.dropLast) || permits w mode uid gid 2)
  | _, some (.dir _ _ _ _) => false
  | _, some n => mayDelete w kn.dropLast n
  | _, none => dirWritable w kn.dropLast

/-- The call `rename(2)`.  Neither path is followed when it ends in a symbolic
link: a link at the new name is replaced itself.  The call fails across
devices (`EXDEV`), when a path ends in `.` or `..`, when the new name ends in
a slash and the source is not a directory, into a directory below the source,
and when `renameFits` does not hold or the source may not be taken out of its
directory; two names of the same object are left as they are. -/
def rename (w : World) (old new : String) : Option World :=
  match resolve w false old with
  | .found ko no =>
    if lastDot old || lastDot new || ko.isEmpty then none
    else if endsInSlash new && !no.isDir then none
    else
      let target : Option (Key × Option Node) :=
        match resolve w false new with
        | .found kn nn => some (kn, some nn)
        | .missing parent name => some (parent ++ [name], none)
        | .err => none
      match target with
      | none => none
      | some (kn, existing) =>
        if devOf w ko.dropLast != devOf w kn.dropLast then none
        else if kn = ko then some w
        else if ko.isPrefixOf kn then none
        else if !mayDelete w ko.dropLast no then none
        else if renameFits w ko kn no existing then
          some { w with fs := rekey (remove w.fs kn) ko kn }
        else none
  | _ => none

/-- Opening an `ifstream`: the stream is attached to the object at the
returned key.  A directory can be opened; reading from it yields nothing. -/
def openRead (w : World) (p : String) : Option Key :=
  match resolve w true p with
  | .found key (.reg mode uid gid _) => if permits w mode uid gid 4 then some key else none
  | .found key (.dir mode uid gid _) => if permits w mode uid gid 4 then some key else none
  | _ => none

/-- Opening an `ofstream` (`O_WRONLY | O_CREAT | O_TRUNC`, mode `0666`): an
existing regular file is truncated to length zero, a missing one is created
empty; the stream is attached to the object at the returned key. -/
def openWrite (w : World) (p : String) : Option (Key × World) :=
  match resolve w true p with
  | .found key (.reg mode uid gid _) =>
    if permits w mode uid gid 2 then
      some (key, { w with fs := replace w.fs key (.reg mode uid gid []) })
    else none
  | .missing parent name =>
    if endsInSlash p then none
    else
      match lookup w.fs parent with
      | some (.dir pmode puid pgid _) =>
        if permits w pmode puid pgid 2 then
          some (parent ++ [name],
            { w with fs := w.fs ++
                [(parent ++ [name],
                  .reg (maskOff 0o666 w.umask) w.euid (newGid w pmode pgid) [])] })
        else none
      | _ => none
  | _ => none

/-- The bytes a read stream attached to `key` delivers. -/
def readAll (w : World) (key : Key) : List Nat :=
  match lookup w.fs key with
  | some (.reg _ _ _ bytes) => bytes
  | _ => []

/-- Writing `bytes` to the write stream attached to `key`: the file grows up
to the size bound of its device, and what does not fit is lost (the stream
goes into a failed state, which the caller may or may not inspect). -/
def write (w : World) (key : Key) (bytes : List Nat) : World :=
  match lookup w.fs key with
  | some (.reg mode uid gid old) =>
    let all := old ++ bytes
    let kept :=
      match devOf w key.dropLast with
      | some dev =>
        match w.limits.lookup dev with
        | some bound => all.take bound
        | none => all
      | none => all
    { w with fs := replace w.fs key (.reg mode uid gid kept) }
  | _ => w

/-- The call `getcwd(buf, size)`: the absolute path of the working directory,
or failure when it does not fit in `size` characters with its terminator. -/
def getcwd (w : World) (size : Nat) : Option String :=
  let p := if w.cwd.isEmpty then "/" else String.join (w.cwd.map (fun c => "/" ++ c))
  if p.length < size then some p else none

/-- Reading one line from standard input with `getline`: at end of input the
string is left empty. -/
def getline (w : World) : String × World :=
  match w.stdin with
  | [] => ("", w)
  | l :: rest => (l, { w with stdin := rest })

end Posix

open Posix

/-- The colour escape a line of console output is wrapped in. -/
inductive Color where
  | red | green | yellow | blue | white | cyan | plain
deriving DecidableEq, Repr

/-- One line of console output.  `line` is a message; `row` is one row of a
listing: the entry name with its marker (`/` for a directory, `*` for an
executable), preceded in the detailed view by the columns rendered from the
entry's `stat` result. -/
inductive Out where
  | line (c : Color) (text : String)
  | row (c : Color) (details : Option Stat) (name : String) (mark : String)
deriving DecidableEq, Repr

/-- The data members of `class FileExplorer`. -/
structure FileExplorer where
  currentPath : String
  fileList : List String
deriving DecidableEq, Repr

/-- What a member function leaves behind: the object, the operating-system
state, and the lines it printed. -/
structure Result where
  fe : FileExplorer
  world : World
  out : List Out
deriving DecidableEq, Repr

namespace FileExplorer

/-- The constructor `FileExplorer()`. -/
def init (w : World) : FileExplorer :=
  match getcwd w 1024 with
  | some cwd => { currentPath := cwd, fileList := [] }
  | none => { currentPath := "/", fileList := [] }

/-- Whether a line is an error report: the program prints those, and only
those, in red. -/
def isError : Out → Bool
  | .line .red _ => true
  | _ => false

/-- Index scan for `std::string::find_last_of` on a character. -/
def find_last_of_aux (c : Char) : List Char → Nat → Option Nat
  | [], _ => none
  | x :: xs, i =>
    match find_last_of_aux c xs (i + 1) with
    | some j => some j
    | none => if x = c then some i else none

/-- The call `s.find_last_of(c)`; `none` is `string::npos`. -/
def find_last_of (s : String) (c : Char) : Option Nat :=
  find_last_of_aux c s.data 0

/-- The call `s.substr(pos, len)`. -/
def substr (s : String) (pos len : Nat) : String :=
  String.mk ((s.data.drop pos).take len)

/-- The call `s.substr(pos)`. -/
def substrFrom (s : String) (pos : Nat) : String :=
  String.mk (s.data.drop pos)

/-- The test `s[0] == '/'` (on an empty string `s[0]` is the terminating NUL). -/
def startsWithSlash (s : String) : Bool := s.data.head? == some '/'

/-- The comparator passed to `std::sort` in `listFiles`: directories first,
then by name. -/
def entryLess (a b : String × Bool) : Bool :=
  if a.2 != b.2 then decide (a.2 > b.2)
  else decide (a.1 < b.1)

/-- The call `std::sort(first, last, less)`.  For a comparator that orders any
two distinct elements, the sorted arrangement is unique, so the algorithm used
does not matter. -/
def sort {α : Type} (less : α → α → Bool) (l : List α) : List α :=
  l.insertionSort (fun a b => less b a = false)

/-- First loop of `listFiles`: the entries of the directory stream whose `stat`
succeeds, each with its directory flag. -/
def readEntries (w : World) (currentPath : String) (names : List String) :
    List (String × Bool) :=
  names.filterMap (fun filename =>
    match stat w (currentPath ++ "/" ++ filename) with
    | some fileStat => some (filename, S_ISDIR fileStat.st_mode)
    | none => none)

/-- Second loop of `listFiles`: the entries that are shown and stored, each
with the `stat` result it is rendered from. -/
def shownEntries (w : World) (currentPath : String) (entries : List (String × Bool)) :
    List (String × Stat) :=
  entries.filterMap (fun entry =>
    match stat w (currentPath ++ "/" ++ entry.1) with
    | some fileStat => some (entry.1, fileStat)
    | none => none)

/-- The row printed for one entry. -/
def renderEntry (detailed : Bool) (e : String × Stat) : Out :=
  let details := if detailed then some e.2 else none
  if S_ISDIR e.2.st_mode then .row .blue details e.1 "/"
  else if e.2.st_mode &&& S_IXUSR != 0 then .row .green details e.1 "*"
  else .row .white details e.1 ""

/-- Member function `listFiles`. -/
def listFiles (fe : FileExplorer) (w : World) (detailed : Bool) : Result :=
  let fe0 := { fe with fileList := [] }
  match opendir w fe.currentPath with
  | none => ⟨fe0, w, [.line .red "Error: Cannot open directory!"]⟩
  | some names =>
    let entries := sort entryLess (readEntries w fe.currentPath names)
    let shown := shownEntries w fe.currentPath entries
    let fe1 := { fe0 with fileList := shown.map Prod.fst }
    ⟨fe1, w,
      [.line .cyan ("Current Directory: " ++ fe.currentPath),
       .line .plain (String.mk (List.replicate 80 '='))]
      ++ (if detailed then
            [.line .plain "Permissions Owner     Group     Size        Modified            Name",
             .line .plain (String.mk (List.replicate 80 '-'))]
          else [])
      ++ shown.map (renderEntry detailed)
      ++ [.line .plain ("Total items: " ++ toString fe1.fileList.length)]⟩

/-- The candidate path computed at the start of `changeDirectory`. -/
def candidatePath (currentPath path : String) : String :=
  if path = ".." then
    match find_last_of currentPath '/' with
    | some pos => if pos ≠ 0 then substr currentPath 0 pos else "/"
    | none => "/"
  else if startsWithSlash path then path
  else currentPath ++ "/" ++ path

/-- Member function `changeDirectory`. -/
def changeDirectory (fe : FileExplorer) (w : World) (path : String) : Result :=
  let newPath := candidatePath fe.currentPath path
  match stat w newPath with
  | some pathStat =>
    if S_ISDIR pathStat.st_mode then
      let fe1 := { fe with currentPath := newPath }
      match chdir w fe1.currentPath with
      | some w1 => ⟨fe1, w1, [.line .green ("Changed directory to: " ++ fe1.currentPath)]⟩
      | none => ⟨fe1, w, [.line .red "Error: Cannot access directory!"]⟩
    else ⟨fe, w, [.line .red "Error: Directory does not exist!"]⟩
  | none => ⟨fe, w, [.line .red "Error: Directory does not exist!"]⟩

/-- Member function `getCurrentPath`. -/
def getCurrentPath (fe : FileExplorer) : String := fe.currentPath

/-- Member function `createFile`. -/
def createFile (fe : FileExplorer) (w : World) (filename : String) : Result :=
  let fullPath := fe.currentPath ++ "/" ++ filename
  match openWrite w fullPath with
  | some (_, w1) => ⟨fe, w1, [.line .green ("File created successfully: " ++ filename)]⟩
  | none => ⟨fe, w, [.line .red "Error: Cannot create file!"]⟩

/-- Member function `createDirectory`. -/
def createDirectory (fe : FileExplorer) (w : World) (dirname : String) : Result :=
  let fullPath := fe.currentPath ++ "/" ++ dirname
  match mkdir w fullPath 0o755 with
  | some w1 => ⟨fe, w1, [.line .green ("Directory created successfully: " ++ dirname)]⟩
  | none => ⟨fe, w, [.line .red "Error: Cannot create directory!"]⟩

/-- Member function `copyFileInternal`.  Neither the stream copy nor `chmod`
is checked: once both streams are open the function returns `true`. -/
def copyFileInternal (w : World) (srcPath destPath : String) : Bool × World :=
  match openRead w srcPath with
  | none => (false, w)
  | some src =>
    match openWrite w destPath with
    | none => (false, w)
    | some (dest, w1) =>
      let w2 := write w1 dest (readAll w1 src)
      match stat w2 srcPath with
      | some srcStat =>
        match chmod w2 destPath srcStat.st_mode with
        | some w3 => (true, w3)
        | none => (true, w2)
      | none => (true, w2)

/-- The `while` loop of `copyDirectoryRecursive` over the names of the
directory stream; `recur` is the recursive call. -/
def copyEntries (recur : World → String → String → Bool × World) (srcPath destPath : String) :
    List String → World → Bool × World
  | [], w => (true, w)
  | filename :: rest, w =>
    if filename = "." || filename = ".." then copyEntries recur srcPath destPath rest w
    else
      let srcFullPath := srcPath ++ "/" ++ filename
      let destFullPath := destPath ++ "/" ++ filename
      match stat w srcFullPath with
      | some fileStat =>
        if S_ISDIR fileStat.st_mode then
          match recur w srcFullPath destFullPath with
          | (true, w1) => copyEntries recur srcPath destPath rest w1
          | (false, w1) => (false, w1)
        else
          match copyFileInternal w srcFullPath destFullPath with
          | (true, w1) => copyEntries recur srcPath destPath rest w1
          | (false, w1) => (false, w1)
      | none => copyEntries recur srcPath destPath rest w

/-- Member function `copyDirectoryRecursive`.  The first argument bounds the
depth of the recursion; every level lengthens the path, and a path of
`PATH_MAX` characters fails `stat`, so `PATH_MAX` levels always suffice. -/
def copyDirectoryRecursive : Nat → World → String → String → Bool × World
  | 0, w, _, _ => (false, w)
  | depth + 1, w, srcPath, destPath =>
    match stat w srcPath with
    | none => (false, w)
    | some srcStat =>
      match mkdir w destPath srcStat.st_mode with
      | none => (false, w)
      | some w1 =>
        match opendir w1 srcPath with
        | none => (false, w1)
        | some names => copyEntries (copyDirectoryRecursive depth) srcPath destPath names w1

/-- The `while` loop of `deleteDirectoryRecursive` over the names of the
directory stream; `recur` is the recursive call. -/
def deleteEntries (recur : World → String → Bool × World) (path : String) :
    List String → World → Bool × World
  | [], w => (true, w)
  | filename :: rest, w =>
    if filename = "." || filename = ".." then deleteEntries recur path rest w
    else
      let fullPath := path ++ "/" ++ filename
      match stat w fullPath with
      | some fileStat =>
        if S_ISDIR fileStat.st_mode then
          match recur w fullPath with
          | (true, w1) => deleteEntries recur path rest w1
          | (false, w1) => (false, w1)
        else
          match unlink w fullPath with
          | some w1 => deleteEntries recur path rest w1
          | none => (false, w)
      | none => deleteEntries recur path rest w

/-- Member function `deleteDirectoryRecursive`; the first argument bounds the
depth of the recursion as in `copyDirectoryRecursive`. -/
def deleteDirectoryRecursive : Nat → World → String → Bool × World
  | 0, w, _ => (false, w)
  | depth + 1, w, path =>
    match opendir w path with
    | none => (false, w)
    | some names =>
      match deleteEntries (deleteDirectoryRecursive depth) path names w with
      | (true, w1) =>
        match rmdir w1 path with
        | some w2 => (true, w2)
        | none => (false, w1)
      | (false, w1) => (false, w1)

/-- Member function `deleteItem`. -/
def deleteItem (fe : FileExplorer) (w : World) (name : String) : Result :=
  let fullPath := fe.currentPath ++ "/" ++ name
  match stat w fullPath with
  | none => ⟨fe, w, [.line .red "Error: Item does not exist!"]⟩
  | some pathStat =>
    if S_ISDIR pathStat.st_mode then
      match rmdir w fullPath with
      | some w1 => ⟨fe, w1, [.line .green ("Directory deleted successfully: " ++ name)]⟩
      | none =>
        let prompt := Out.line .yellow "Directory is not empty. Delete recursively? (yes/no): "
        let (confirm, w1) := getline w
        if confirm = "yes" then
          match deleteDirectoryRecursive PATH_MAX w1 fullPath with
          | (true, w2) =>
            ⟨fe, w2, [prompt,
              .line .green ("Directory and all contents deleted successfully: " ++ name)]⟩
          | (false, w2) => ⟨fe, w2, [prompt, .line .red "Error: Cannot delete directory!"]⟩
        else ⟨fe, w1, [prompt, .line .yellow "Operation cancelled."]⟩
    else
      match unlink w fullPath with
      | some w1 => ⟨fe, w1, [.line .green ("File deleted successfully: " ++ name)]⟩
      | none => ⟨fe, w, [.line .red "Error: Cannot delete file!"]⟩

/-- Member function `copyFile`. -/
def copyFile (fe : FileExplorer) (w : World) (source destination : String) : Result :=
  let srcPath := fe.currentPath ++ "/" ++ source
  let destPath :=
    if startsWithSlash destination then destination else fe.currentPath ++ "/" ++ destination
  match stat w srcPath with
  | none => ⟨fe, w, [.line .red "Error: Source does not exist!"]⟩
  | some srcStat =>
    if S_ISDIR srcStat.st_mode then
      let note := Out.line .yellow "Copying directory recursively..."
      match copyDirectoryRecursive PATH_MAX w srcPath destPath with
      | (true, w1) =>
        ⟨fe, w1, [note, .line .green
          ("Directory copied successfully from " ++ source ++ " to " ++ destination)]⟩
      | (false, w1) => ⟨fe, w1, [note, .line .red "Error: Cannot copy directory!"]⟩
    else
      match copyFileInternal w srcPath destPath with
      | (true, w1) =>
        ⟨fe, w1, [.line .green
          ("File copied successfully from " ++ source ++ " to " ++ destination)]⟩
      | (false, w1) => ⟨fe, w1, [.line .red "Error: Cannot copy file!"]⟩

/-- The base name `moveFile` appends to a destination directory: the part of
`source` after its last slash. -/
def sourceName (source : String) : String :=
  match find_last_of source '/' with
  | some lastSlash => substrFrom source (lastSlash + 1)
  | none => source

/-- Second half of `moveFile`: `rename`, and when that fails copy followed by
deletion of the source. -/
def relocate (fe : FileExplorer) (w : World) (srcStat : Stat) (srcPath destPath : String) :
    Result :=
  match rename w srcPath destPath with
  | some w1 =>
    if S_ISDIR srcStat.st_mode then
      ⟨fe, w1, [.line .green ("Directory moved successfully to " ++ destPath)]⟩
    else ⟨fe, w1, [.line .green ("File moved successfully to " ++ destPath)]⟩
  | none =>
    let note := Out.line .yellow "Cross-filesystem move detected, copying and deleting original..."
    if S_ISDIR srcStat.st_mode then
      match copyDirectoryRecursive PATH_MAX w srcPath destPath with
      | (true, w1) =>
        match deleteDirectoryRecursive PATH_MAX w1 srcPath with
        | (true, w2) =>
          ⟨fe, w2, [note, .line .green ("Directory moved successfully to " ++ destPath)]⟩
        | (false, w2) =>
          ⟨fe, w2, [note, .line .red "Error: Copied but could not delete source directory!"]⟩
      | (false, w1) => ⟨fe, w1, [note, .line .red "Error: Cannot move directory!"]⟩
    else
      match copyFileInternal w srcPath destPath with
      | (true, w1) =>
        match unlink w1 srcPath with
        | some w2 => ⟨fe, w2, [note, .line .green ("File moved successfully to " ++ destPath)]⟩
        | none =>
          ⟨fe, w1, [note, .line .red "Error: Copied but could not delete source file!"]⟩
      | (false, w1) => ⟨fe, w1, [note, .line .red "Error: Cannot move file!"]⟩

/-- Member function `moveFile`. -/
def moveFile (fe : FileExplorer) (w : World) (source destination : String) : Result :=
  let srcPath := fe.currentPath ++ "/" ++ source
  let destPath :=
    if startsWithSlash destination then destination else fe.currentPath ++ "/" ++ destination
  match stat w srcPath with
  | none => ⟨fe, w, [.line .red "Error: Source does not exist!"]⟩
  | some srcStat =>
    match stat w destPath with
    | some destStat =>
      if S_ISDIR destStat.st_mode then
        let inside := destPath ++ "/" ++ sourceName source
        match stat w inside with
        | some _ =>
          ⟨fe, w, [.line .red
            ("Error: '" ++ sourceName source ++ "' already exists in destination directory!")]⟩
        | none => relocate fe w srcStat srcPath inside
      else ⟨fe, w, [.line .red "Error: Destination already exists as a file!"]⟩
    | none => relocate fe w srcStat srcPath destPath

/-- Member function `renameItem`. -/
def renameItem (fe : FileExplorer) (w : World) (oldName newName : String) : Result :=
  let oldPath := fe.currentPath ++ "/" ++ oldName
  let newPath := fe.currentPath ++ "/" ++ newName
  match stat w oldPath with
  | none => ⟨fe, w, [.line .red "Error: Item does not exist!"]⟩
  | some srcStat =>
    match stat w newPath with
    | some _ =>
      ⟨fe, w, [.line .red ("Error: An item with name '" ++ newName ++ "' already exists!")]⟩
    | none =>
      match rename w oldPath newPath with
      | some w1 =>
        if S_ISDIR srcStat.st_mode then
          ⟨fe, w1, [.line .green
            ("Directory renamed from '" ++ oldName ++ "' to '" ++ newName ++ "'")]⟩
        else
          ⟨fe, w1, [.line .green
            ("File renamed from '" ++ oldName ++ "' to '" ++ newName ++ "'")]⟩
      | none => ⟨fe, w, [.line .red "Error: Cannot rename item!"]⟩

end FileExplorer

/-! ## A concrete machine

A small file system used to run the program on explicit inputs: an unprivileged
user (uid 1000, umask 022) whose home directory `/home` holds a five-byte file,
a group-writable directory with one file in it, and a directory without search
permission; `/mnt` is the mount point of a second device on which a file can
hold at most two bytes. -/

namespace Example

def world : World :=
  { fs := [([], .dir 0o755 0 0 0),
           (["home"], .dir 0o755 1000 1000 0),
           (["mnt"], .dir 0o777 0 0 1),
           (["home", "a.txt"], .reg 0o644 1000 1000 [104, 101, 108, 108, 111]),
           (["home", "docs"], .dir 0o775 1000 1000 0),
           (["home", "docs", "notes.txt"], .reg 0o600 1000 1000 [7, 8]),
           (["home", "locked"], .dir 0o600 1000 1000 0)],
    limits := [(1, 2)],
    umask := 0o022,
    euid := 1000,
    egid := 1000,
    cwd := ["home"],
    stdin := ["no"] }

def explorer : FileExplorer := { currentPath := "/home", fileList := [] }

/-- The same machine with a directory `/home/archive`, which lies outside
`/home/docs`, and a symbolic link `/home/docs/shared` that points to it; the
user answers `yes` at a prompt. -/
def linked : World :=
  { world with
    fs := world.fs ++
      [(["home", "archive"], .dir 0o755 1000 1000 0),
       (["home", "archive", "old.txt"], .reg 0o644 1000 1000 [111, 108, 100]),
       (["home", "docs", "shared"], .lnk 1000 "/home/archive")],
    stdin := ["yes"] }

/-- The first machine with two symbolic links whose target does not exist:
`/home/stale` and `/home/docs/a.txt`. -/
def dangling : World :=
  { world with
    fs := world.fs ++
      [(["home", "stale"], .lnk 1000 "gone"),
       (["home", "docs", "a.txt"], .lnk 1000 "gone")] }

end Example

/-! ## Vocabulary of the statements -/

namespace FileExplorer

/-- Whether a path names an entry of the file system, whatever the entry is:
`lstat` succeeds.  A symbolic link whose target is missing is such an entry,
although `stat` fails on it. -/
def nameExists (w : World) (p : String) : Bool :=
  match resolve w false p with
  | .found _ _ => true
  | _ => false

/-- Whether a path names an existing directory, as the program tests it:
`stat` succeeds and the mode it reports passes `S_ISDIR`. -/
def isDirectory (w : World) (p : String) : Bool :=
  match stat w p with
  | some pathStat => S_ISDIR pathStat.st_mode
  | none => false

/-- Whether the entry `name` of the directory `currentPath` is a directory, as
`listFiles` decides it: by the mode `stat` reports for `currentPath/name`. -/
def isDirEntry (w : World) (currentPath name : String) : Bool :=
  isDirectory w (currentPath ++ "/" ++ name)

/-- The destination path `copyFile` and `moveFile` resolve: the argument itself
when it starts with a slash, otherwise the argument below the working
directory. -/
def destinationPath (currentPath destination : String) : String :=
  if startsWithSlash destination then destination else currentPath ++ "/" ++ destination

/-- The entry name a line of output displays, if it is a row of a listing. -/
def rowName : Out → Option String
  | .row _ _ name _ => some name
  | .line _ _ => none

/-- The entry names a piece of output displays, in order. -/
def shownNames (out : List Out) : List String :=
  out.filterMap rowName

end FileExplorer

/-! ## Facts about the operating-system model -/

namespace Posix

/-- The mode `stat` reports for a directory passes `S_ISDIR`. -/
theorem S_ISDIR_dir (m : Nat) : S_ISDIR (S_IFDIR ||| (m &&& 0o7777)) = true := by
  have h1 : (16384 &&& 61440 : Nat) = 16384 := by decide
  have h2 : (4095 &&& 61440 : Nat) = 0 := by decide
  simp [S_ISDIR, S_IFDIR, S_IFMT, Nat.and_distrib_right, Nat.and_assoc, h1, h2]

/-- Reading a line leaves the file system alone. -/
theorem getline_fs (w : World) : (getline w).2.fs = w.fs := by
  unfold getline
  cases w.stdin <;> rfl

/-- A walk that ends on a directory without following a final link ends on the
same directory when final links are followed. -/
theorem walk_follow_of_dir (w : World) :
    ∀ (fuel links : Nat) (cur : Key) (cs : List String) (k : Key) (n : Node),
      walk w false fuel links cur cs = .found k n → n.isDir = true →
      walk w true fuel links cur cs = .found k n := by
  intro fuel
  induction fuel with
  | zero => intro links cur cs k n h _; simp [walk] at h
  | succ fuel ih =>
    intro links cur cs k n h hn
    cases cs with
    | nil => simpa [walk] using h
    | cons c rest =>
      simp only [walk] at h ⊢
      cases hcur : lookup w.fs cur with
      | none => simp [hcur] at h
      | some nd =>
        cases nd with
        | reg _ _ _ _ => simp [hcur] at h
        | lnk _ => simp [hcur] at h
        | dir mode uid gid dev =>
          by_cases hperm : permits w mode uid gid 1 = true
          · by_cases hc : c = "."
            · simp [hcur, hperm, hc] at h ⊢
              exact ih _ _ _ _ _ h hn
            · by_cases hcc : c = ".."
              · simp [hcur, hperm, hcc] at h ⊢
                exact ih _ _ _ _ _ h hn
              · by_cases hlen : NAME_MAX < c.length
                · simp [hcur, hperm, hc, hcc, hlen] at h
                · cases hl : lookup w.fs (cur ++ [c]) with
                  | none =>
                    simp [hcur, hperm, hc, hcc, hlen, hl] at h
                    split at h <;> simp at h
                  | some nd2 =>
                    cases nd2 with
                    | reg _ _ _ _ =>
                      simp [hcur, hperm, hc, hcc, hlen, hl] at h ⊢
                      exact ih _ _ _ _ _ h hn
                    | dir _ _ _ _ =>
                      simp [hcur, hperm, hc, hcc, hlen, hl] at h ⊢
                      exact ih _ _ _ _ _ h hn
                    | lnk u t =>
                      by_cases hr : rest = []
                      · simp [hcur, hperm, hc, hcc, hlen, hl, hr] at h
                        obtain ⟨_, rfl⟩ := h
                        simp [Node.isDir] at hn
                      · by_cases hlinks : links = 0
                        · simp [hcur, hperm, hc, hcc, hlen, hl, hr, hlinks] at h
                        · by_cases ht : t.data = []
                          · simp [hcur, hperm, hc, hcc, hlen, hl, hr, hlinks, ht] at h
                          · simp [hcur, hperm, hc, hcc, hlen, hl, hr, hlinks, ht] at h ⊢
                            exact ih _ _ _ _ _ h hn
          · simp [hcur, hperm] at h

/-- Resolution that names a directory without following a final link names the
same directory when final links are followed. -/
theorem resolve_follow_of_dir (w : World) (p : String) (k : Key) (n : Node)
    (h : resolve w false p = .found k n) (hn : n.isDir = true) :
    resolve w true p = .found k n := by
  unfold resolve at h ⊢
  split at h
  · simp at h
  · rename_i hp
    simp only [hp, if_false]
    cases hs : endsInSlash p with
    | true => simpa [hs] using h
    | false =>
      simp only [hs, Bool.or_false, Bool.false_and, if_false] at h ⊢
      split at h
      · rename_i k2 n2 hw
        simp at h
        obtain ⟨rfl, rfl⟩ := h
        rw [walk_follow_of_dir w _ _ _ _ _ _ hw hn]
        simp
      · rename_i r hr
        rw [h] at hr
        exact absurd rfl (hr k n)

/-- The call `rmdir` fails on a path that names a directory with entries. -/
theorem rmdir_nonempty (w : World) (p : String) (k : Key) (n : Node)
    (h : resolve w true p = .found k n) (hne : hasChild w.fs k = true) :
    rmdir w p = none := by
  unfold rmdir
  split
  · rename_i key _ _ _ dev hres
    have h2 := resolve_follow_of_dir w p _ _ hres rfl
    rw [h] at h2
    simp at h2
    obtain ⟨rfl, _⟩ := h2
    simp [hne]
  · rfl

/-- A path that resolves when final links are followed also names something
when they are not: the same object, or the link that leads to it. -/
theorem walk_nofollow_of_found (w : World) :
    ∀ (fuel links : Nat) (cur : Key) (cs : List String) (k : Key) (n : Node),
      walk w true fuel links cur cs = .found k n →
      ∃ k2 n2, walk w false fuel links cur cs = .found k2 n2 := by
  intro fuel
  induction fuel with
  | zero => intro links cur cs k n h; simp [walk] at h
  | succ fuel ih =>
    intro links cur cs k n h
    cases cs with
    | nil => exact ⟨k, n, by simpa [walk] using h⟩
    | cons c rest =>
      simp only [walk] at h ⊢
      cases hcur : lookup w.fs cur with
      | none => simp [hcur] at h
      | some nd =>
        cases nd with
        | reg _ _ _ _ => simp [hcur] at h
        | lnk _ => simp [hcur] at h
        | dir mode uid gid dev =>
          by_cases hperm : permits w mode uid gid 1 = true
          · by_cases hc : c = "."
            · simp [hcur, hperm, hc] at h ⊢
              exact ih _ _ _ _ _ h
            · by_cases hcc : c = ".."
              · simp [hcur, hperm, hcc] at h ⊢
                exact ih _ _ _ _ _ h
              · by_cases hlen : NAME_MAX < c.length
                · simp [hcur, hperm, hc, hcc, hlen] at h
                · cases hl : lookup w.fs (cur ++ [c]) with
                  | none =>
                    simp [hcur, hperm, hc, hcc, hlen, hl] at h
                    split at h <;> simp at h
                  | some nd2 =>
                    cases nd2 with
                    | reg _ _ _ _ =>
                      simp [hcur, hperm, hc, hcc, hlen, hl] at h ⊢
                      exact ih _ _ _ _ _ h
                    | dir _ _ _ _ =>
                      simp [hcur, hperm, hc, hcc, hlen, hl] at h ⊢
                      exact ih _ _ _ _ _ h
                    | lnk u t =>
                      by_cases hr : rest = []
                      · simp [hcur, hperm, hc, hcc, hlen, hl, hr]
                      · by_cases hlinks : links = 0
                        · simp [hcur, hperm, hc, hcc, hlen, hl, hr, hlinks] at h
                        · by_cases ht : t.data = []
                          · simp [hcur, hperm, hc, hcc, hlen, hl, hr, hlinks, ht] at h
                          · simp [hcur, hperm, hc, hcc, hlen, hl, hr, hlinks, ht] at h ⊢
                            exact ih _ _ _ _ _ h
          · simp [hcur, hperm] at h

/-- A path on which `stat` succeeds is not a free name. -/
theorem resolve_nofollow_of_stat (w : World) (p : String) (h : (stat w p).isSome = true) :
    ∃ k n, resolve w false p = .found k n := by
  have hres : ∃ k n, resolve w true p = .found k n := by
    unfold stat at h
    split at h
    · exact ⟨_, _, by assumption⟩
    · exact ⟨_, _, by assumption⟩
    · simp at h
  obtain ⟨k, n, hkn⟩ := hres
  unfold resolve at hkn ⊢
  split at hkn
  · simp at hkn
  · rename_i hp
    simp only [hp, if_false]
    cases hs : endsInSlash p with
    | true =>
      simp only [hs, Bool.or_true] at hkn ⊢
      exact ⟨k, n, hkn⟩
    | false =>
      simp only [hs, Bool.or_false, Bool.false_and, if_false] at hkn ⊢
      split at hkn
      · rename_i k1 n1 hw
        obtain ⟨k2, n2, h2⟩ := walk_nofollow_of_found w _ _ _ _ _ _ hw
        exact ⟨k2, n2, by rw [h2]; simp⟩
      · rename_i r hr
        rw [hkn] at hr
        exact absurd rfl (hr k n)

/-- The call `mkdir` fails on a path on which `stat` succeeds. -/
theorem mkdir_existing (w : World) (p : String) (mode : Nat) (h : (stat w p).isSome = true) :
    mkdir w p mode = none := by
  obtain ⟨k, n, hkn⟩ := resolve_nofollow_of_stat w p h
  simp [mkdir, hkn]

/-- Resolution refuses a path of `PATH_MAX` characters or more. -/
theorem resolve_long (w : World) (follow : Bool) (p : String) (h : PATH_MAX ≤ p.length) :
    resolve w follow p = .err := by
  simp [resolve, h]

/-- The call `stat` fails on a path of `PATH_MAX` characters or more. -/
theorem stat_long (w : World) (p : String) (h : PATH_MAX ≤ p.length) : stat w p = none := by
  simp [stat, resolve_long w true p h]

/-- The call `opendir` fails on a path of `PATH_MAX` characters or more. -/
theorem opendir_long (w : World) (p : String) (h : PATH_MAX ≤ p.length) :
    opendir w p = none := by
  simp [opendir, resolve_long w true p h]

end Posix

/-! ## The recursion bound is never reached

`copyDirectoryRecursive` and `deleteDirectoryRecursive` carry a depth bound so
that they are defined by structural recursion.  Each level of the recursion
lengthens the path by at least one character and a path of `PATH_MAX`
characters is refused by `stat` and `opendir`, so a larger bound never changes
the result: the member functions are total, and the bound `PATH_MAX` used by
the callers gives the value of the unbounded recursion. -/

namespace FileExplorer

/-- The copy loop depends on the recursive call only at the entries of the
directory being copied. -/
theorem copyEntries_congr (r1 r2 : World → String → String → Bool × World)
    (srcPath destPath : String)
    (h : ∀ w name, r1 w (srcPath ++ "/" ++ name) (destPath ++ "/" ++ name)
      = r2 w (srcPath ++ "/" ++ name) (destPath ++ "/" ++ name)) :
    ∀ (names : List String) (w : World),
      copyEntries r1 srcPath destPath names w = copyEntries r2 srcPath destPath names w := by
  intro names
  induction names with
  | nil => intro w; rfl
  | cons name rest ih =>
    intro w
    simp only [copyEntries, h, ih]

/-- One more level of depth does not change `copyDirectoryRecursive` once the
bound covers the room left below `PATH_MAX`. -/
theorem copyDirectoryRecursive_depth :
    ∀ (depth : Nat) (w : World) (srcPath destPath : String),
      PATH_MAX ≤ srcPath.length + depth →
      copyDirectoryRecursive depth w srcPath destPath
        = copyDirectoryRecursive (depth + 1) w srcPath destPath := by
  intro depth
  induction depth with
  | zero =>
    intro w srcPath destPath h
    simp [copyDirectoryRecursive, stat_long w srcPath (by simpa using h)]
  | succ d ih =>
    intro w srcPath destPath h
    rw [copyDirectoryRecursive, copyDirectoryRecursive]
    have hc : ∀ (names : List String) (w1 : World),
        copyEntries (copyDirectoryRecursive d) srcPath destPath names w1
          = copyEntries (copyDirectoryRecursive (d + 1)) srcPath destPath names w1 := by
      apply copyEntries_congr
      intro w1 name
      apply ih
      simp only [String.length_append]
      have : ("/" : String).length = 1 := rfl
      omega
    simp only [hc]

/-- Every depth bound of at least `PATH_MAX` gives `copyDirectoryRecursive` the
same value. -/
theorem copyDirectoryRecursive_total (extra : Nat) (w : World) (srcPath destPath : String) :
    copyDirectoryRecursive (PATH_MAX + extra) w srcPath destPath
      = copyDirectoryRecursive PATH_MAX w srcPath destPath := by
  induction extra with
  | zero => rfl
  | succ n ih =>
    rw [← ih]
    exact (copyDirectoryRecursive_depth (PATH_MAX + n) w srcPath destPath (by omega)).symm

/-- The delete loop depends on the recursive call only at the entries of the
directory being deleted. -/
theorem deleteEntries_congr (r1 r2 : World → String → Bool × World) (path : String)
    (h : ∀ w name, r1 w (path ++ "/" ++ name) = r2 w (path ++ "/" ++ name)) :
    ∀ (names : List String) (w : World),
      deleteEntries r1 path names w = deleteEntries r2 path names w := by
  intro names
  induction names with
  | nil => intro w; rfl
  | cons name rest ih =>
    intro w
    simp only [deleteEntries, h, ih]

/-- One more level of depth does not change `deleteDirectoryRecursive` once the
bound covers the room left below `PATH_MAX`. -/
theorem deleteDirectoryRecursive_depth :
    ∀ (depth : Nat) (w : World) (path : String),
      PATH_MAX ≤ path.length + depth →
      deleteDirectoryRecursive depth w path = deleteDirectoryRecursive (depth + 1) w path := by
  intro depth
  induction depth with
  | zero =>
    intro w path h
    simp [deleteDirectoryRecursive, opendir_long w path (by simpa using h)]
  | succ d ih =>
    intro w path h
    rw [deleteDirectoryRecursive, deleteDirectoryRecursive]
    have hc : ∀ (names : List String) (w1 : World),
        deleteEntries (deleteDirectoryRecursive d) path names w1
          = deleteEntries (deleteDirectoryRecursive (d + 1)) path names w1 := by
      apply deleteEntries_congr
      intro w1 name
      apply ih
      simp only [String.length_append]
      have : ("/" : String).length = 1 := rfl
      omega
    simp only [hc]

/-- Every depth bound of at least `PATH_MAX` gives `deleteDirectoryRecursive`
the same value. -/
theorem deleteDirectoryRecursive_total (extra : Nat) (w : World) (path : String) :
    deleteDirectoryRecursive (PATH_MAX + extra) w path
      = deleteDirectoryRecursive PATH_MAX w path := by
  induction extra with
  | zero => rfl
  | succ n ih =>
    rw [← ih]
    exact (deleteDirectoryRecursive_depth (PATH_MAX + n) w path (by omega)).symm

/-- The object constructed on the example machine. -/
theorem init_example : init Example.world = Example.explorer := by
  decide

/-! ## The claims -/

/-- A copy step that reports failure has changed nothing. -/
theorem copyFileInternal_failed (w w1 : World) (srcPath destPath : String)
    (h : copyFileInternal w srcPath destPath = (false, w1)) : w1 = w := by
  unfold copyFileInternal at h
  split at h
  · simp at h
    exact h.symm
  · split at h
    · simp at h
      exact h.symm
    · dsimp only at h
      split at h
      · split at h <;> simp at h
      · simp at h

/-- When the copy step of a file move reports failure, `moveFile` removes
nothing: the state is the one before the call. -/
theorem relocate_copy_failed (fe : FileExplorer) (w w1 : World) (srcStat : Stat)
    (srcPath destPath : String) (hfile : S_ISDIR srcStat.st_mode = false)
    (hrename : rename w srcPath destPath = none)
    (hcopy : copyFileInternal w srcPath destPath = (false, w1)) :
    relocate fe w srcStat srcPath destPath =
      ⟨fe, w,
        [.line .yellow "Cross-filesystem move detected, copying and deleting original...",
         .line .red "Error: Cannot move file!"]⟩ := by
  have hw := copyFileInternal_failed w w1 srcPath destPath hcopy
  subst hw
  simp [relocate, hrename, hfile, hcopy]

/-- C1 (the code loses data): moving the five-byte `/home/a.txt` to the other
device at `/mnt`, where the direct `rename` fails and only two bytes fit.  The
copy step stores two bytes, `copyFileInternal` still answers `true`, and the
source is unlinked: the program announces success, the source is gone, and the
destination holds a truncated file. -/
theorem moveFile_unlinks_after_short_copy :
    lookup Example.world.fs ["home", "a.txt"]
        = some (.reg 0o644 1000 1000 [104, 101, 108, 108, 111]) ∧
      rename Example.world "/home/a.txt" "/mnt/a.txt" = none ∧
      (copyFileInternal Example.world "/home/a.txt" "/mnt/a.txt").1 = true ∧
      (moveFile Example.explorer Example.world "a.txt" "/mnt").out =
        [.line .yellow "Cross-filesystem move detected, copying and deleting original...",
         .line .green "File moved successfully to /mnt/a.txt"] ∧
      lookup (moveFile Example.explorer Example.world "a.txt" "/mnt").world.fs ["home", "a.txt"]
        = none ∧
      lookup (moveFile Example.explorer Example.world "a.txt" "/mnt").world.fs ["mnt", "a.txt"]
        = some (.reg 0o644 1000 1000 [104, 101]) := by
  decide

/-- C2 (the code does not reproduce the tree): copying the directory
`/home/docs`, whose mode is 0775, to the fresh path `/home/copy` and deleting
the original both succeed under umask 022, yet the root of the copy has mode
0755: `mkdir` applies the umask to the mode it is given and nothing sets the
mode afterwards.  Names and file contents are reproduced. -/
theorem copy_then_delete_changes_directory_mode :
    stat Example.world "/home/copy" = none ∧
      lookup Example.world.fs ["home", "docs"] = some (.dir 0o775 1000 1000 0) ∧
      (copyDirectoryRecursive PATH_MAX Example.world "/home/docs" "/home/copy").1 = true ∧
      (deleteDirectoryRecursive PATH_MAX
        (copyDirectoryRecursive PATH_MAX Example.world "/home/docs" "/home/copy").2
        "/home/docs").1 = true ∧
      (deleteDirectoryRecursive PATH_MAX
        (copyDirectoryRecursive PATH_MAX Example.world "/home/docs" "/home/copy").2
        "/home/docs").2.fs =
        [([], .dir 0o755 0 0 0),
         (["home"], .dir 0o755 1000 1000 0),
         (["mnt"], .dir 0o777 0 0 1),
         (["home", "a.txt"], .reg 0o644 1000 1000 [104, 101, 108, 108, 111]),
         (["home", "locked"], .dir 0o600 1000 1000 0),
         (["home", "copy"], .dir 0o755 1000 1000 0),
         (["home", "copy", "notes.txt"], .reg 0o600 1000 1000 [7, 8])] := by
  decide

/-- C3: when `name` refers to a directory that has entries and the line read
at the prompt is anything but `yes` (or input has ended), `deleteItem` prints
the prompt and the cancellation notice and changes nothing: the file system is
the one it started with; only the answer has been consumed from the input. -/
theorem deleteItem_declined_changes_nothing (fe : FileExplorer) (w : World) (name : String)
    (k : Key) (mode uid gid dev : Nat)
    (hdir : resolve w true (fe.currentPath ++ "/" ++ name) = .found k (.dir mode uid gid dev))
    (hne : hasChild w.fs k = true)
    (hconfirm : (getline w).1 ≠ "yes") :
    deleteItem fe w name =
        ⟨fe, (getline w).2,
          [.line .yellow "Directory is not empty. Delete recursively? (yes/no): ",
           .line .yellow "Operation cancelled."]⟩ ∧
      (deleteItem fe w name).world.fs = w.fs := by
  have hstat : stat w (fe.currentPath ++ "/" ++ name) =
      some { st_mode := S_IFDIR ||| (mode &&& 0o7777), st_uid := uid, st_gid := gid,
             st_size := 0 } := by
    simp [stat, hdir]
  have hrm := rmdir_nonempty w _ k _ hdir hne
  have h1 : deleteItem fe w name =
      ⟨fe, (getline w).2,
        [.line .yellow "Directory is not empty. Delete recursively? (yes/no): ",
         .line .yellow "Operation cancelled."]⟩ := by
    simp only [deleteItem, hstat, S_ISDIR_dir, hrm, if_true]
    simp [hconfirm]
  exact ⟨h1, by rw [h1]; exact getline_fs w⟩

/-- Witness for C3: declining to delete `/home/docs`. -/
theorem deleteItem_declined_changes_nothing_witness :
    deleteItem Example.explorer Example.world "docs" =
        ⟨Example.explorer, (getline Example.world).2,
          [.line .yellow "Directory is not empty. Delete recursively? (yes/no): ",
           .line .yellow "Operation cancelled."]⟩ ∧
      (deleteItem Example.explorer Example.world "docs").world.fs = Example.world.fs :=
  deleteItem_declined_changes_nothing Example.explorer Example.world "docs"
    ["home", "docs"] 0o775 1000 1000 0 (by decide) (by decide) (by decide)

/-- C4 (the code replaces the item that holds the target name): `/home/a.txt`
and `/home/stale` both exist, the latter as a symbolic link whose target is
missing.  The test `renameItem` makes for the new name is `stat`, which follows
the link and fails, so the name counts as free: `rename` is called, success is
printed, and the link that held the name `stale` is gone, replaced by the
file. -/
theorem renameItem_replaces_dangling_link :
    nameExists Example.dangling "/home/a.txt" = true ∧
      nameExists Example.dangling "/home/stale" = true ∧
      lookup Example.dangling.fs ["home", "stale"] = some (.lnk 1000 "gone") ∧
      stat Example.dangling "/home/stale" = none ∧
      (renameItem Example.explorer Example.dangling "a.txt" "stale").out =
        [.line .green "File renamed from 'a.txt' to 'stale'"] ∧
      lookup (renameItem Example.explorer Example.dangling "a.txt" "stale").world.fs
        ["home", "stale"] = some (.reg 0o644 1000 1000 [104, 101, 108, 108, 111]) ∧
      lookup (renameItem Example.explorer Example.dangling "a.txt" "stale").world.fs
        ["home", "a.txt"] = none := by
  decide

/-- What `renameItem` does guarantee: when `stat` succeeds on both
`currentPath/oldName` and `currentPath/newName`, it reports that the name is
taken and returns with the object and the whole operating-system state exactly
as they were. -/
theorem renameItem_taken_name (fe : FileExplorer) (w : World) (oldName newName : String)
    (hOld : (stat w (fe.currentPath ++ "/" ++ oldName)).isSome = true)
    (hNew : (stat w (fe.currentPath ++ "/" ++ newName)).isSome = true) :
    renameItem fe w oldName newName =
      ⟨fe, w, [.line .red ("Error: An item with name '" ++ newName ++ "' already exists!")]⟩ := by
  obtain ⟨s1, h1⟩ := Option.isSome_iff_exists.mp hOld
  obtain ⟨s2, h2⟩ := Option.isSome_iff_exists.mp hNew
  simp [renameItem, h1, h2]

/-- The refusal on the example machine: renaming `a.txt` to the existing name
`docs`. -/
theorem renameItem_taken_name_witness :
    renameItem Example.explorer Example.world "a.txt" "docs" =
      ⟨Example.explorer, Example.world,
        [.line .red ("Error: An item with name '" ++ "docs" ++ "' already exists!")]⟩ :=
  renameItem_taken_name Example.explorer Example.world "a.txt" "docs" (by decide) (by decide)

/-- The comparator of `listFiles` never orders two entries both ways. -/
theorem entryLess_total (a b : String × Bool) :
    entryLess b a = false ∨ entryLess a b = false := by
  obtain ⟨an, ad⟩ := a
  obtain ⟨bn, bd⟩ := b
  cases ad <;> cases bd <;> simp [entryLess]
  all_goals exact le_total _ _

/-- Being not-greater under the comparator of `listFiles` is transitive. -/
theorem entryLess_trans (a b c : String × Bool)
    (hab : entryLess b a = false) (hbc : entryLess c b = false) : entryLess c a = false := by
  obtain ⟨an, ad⟩ := a
  obtain ⟨bn, bd⟩ := b
  obtain ⟨cn, cd⟩ := c
  cases ad <;> cases bd <;> cases cd <;> simp [entryLess] at hab hbc ⊢
  all_goals exact le_trans hab hbc

/-- The result of `sort entryLess` is in comparator order. -/
theorem sort_entryLess_sorted (l : List (String × Bool)) :
    (sort entryLess l).Pairwise (fun a b => entryLess b a = false) := by
  haveI : IsTotal (String × Bool) (fun a b => entryLess b a = false) :=
    ⟨fun a b => entryLess_total a b⟩
  haveI : IsTrans (String × Bool) (fun a b => entryLess b a = false) :=
    ⟨fun a b c hab hbc => entryLess_trans a b c hab hbc⟩
  exact List.sorted_insertionSort (fun a b => entryLess b a = false) l

/-- Any arrangement of the entries that is in comparator order is the one
`sort entryLess` returns: what `std::sort` yields does not depend on its
algorithm. -/
theorem sort_entryLess_unique (l l2 : List (String × Bool)) (hperm : l2.Perm l)
    (hsorted : l2.Pairwise (fun a b => entryLess b a = false)) :
    l2 = sort entryLess l := by
  haveI : IsTotal (String × Bool) (fun a b => entryLess b a = false) :=
    ⟨fun a b => entryLess_total a b⟩
  haveI : IsTrans (String × Bool) (fun a b => entryLess b a = false) :=
    ⟨fun a b c hab hbc => entryLess_trans a b c hab hbc⟩
  haveI : IsAntisymm (String × Bool) (fun a b => entryLess b a = false) := by
    constructor
    intro a b hab hba
    obtain ⟨an, ad⟩ := a
    obtain ⟨bn, bd⟩ := b
    cases ad <;> cases bd <;> simp [entryLess] at hab hba ⊢
    all_goals exact String.ext (le_antisymm hab hba)
  exact List.eq_of_perm_of_sorted (hperm.trans (List.perm_insertionSort _ l).symm) hsorted
    (List.sorted_insertionSort (fun a b => entryLess b a = false) l)

/-- Every entry collected by the first loop of `listFiles` carries the directory
flag of its name. -/
theorem readEntries_flag (w : World) (currentPath : String) (names : List String)
    (e : String × Bool) (he : e ∈ readEntries w currentPath names) :
    e.2 = isDirEntry w currentPath e.1 := by
  simp only [readEntries, List.mem_filterMap] at he
  obtain ⟨name, _, hname⟩ := he
  unfold isDirEntry isDirectory
  cases hs : stat w (currentPath ++ "/" ++ name) with
  | none => simp [hs] at hname
  | some st =>
    simp [hs] at hname
    subst hname
    simp [hs]

/-- The row printed for an entry displays the entry's name. -/
theorem rowName_renderEntry (detailed : Bool) (e : String × Stat) :
    rowName (renderEntry detailed e) = some e.1 := by
  unfold renderEntry
  dsimp only
  split_ifs <;> rfl

/-- The names displayed by the rows of a listing. -/
theorem shownNames_render (detailed : Bool) (shown : List (String × Stat)) :
    shownNames (shown.map (renderEntry detailed)) = shown.map Prod.fst := by
  induction shown with
  | nil => rfl
  | cons e rest ih =>
    simp only [shownNames, List.map_cons, List.filterMap_cons, rowName_renderEntry] at ih ⊢
    rw [ih]

/-- C5: when the working directory can be opened, the names `listFiles` stores
in `fileList` are exactly the names it displays, in the same order, and in that
order no non-directory comes before a directory, and of two entries of the same
kind the earlier name is not greater than the later one. -/
theorem listFiles_directories_first_names_ascending (fe : FileExplorer) (w : World)
    (detailed : Bool) (hopen : (opendir w fe.currentPath).isSome = true) :
    (listFiles fe w detailed).fe.fileList.Pairwise (fun a b =>
        (isDirEntry w fe.currentPath b = true → isDirEntry w fe.currentPath a = true) ∧
        (isDirEntry w fe.currentPath a = isDirEntry w fe.currentPath b → a ≤ b)) ∧
      shownNames (listFiles fe w detailed).out = (listFiles fe w detailed).fe.fileList := by
  obtain ⟨names, hnames⟩ := Option.isSome_iff_exists.mp hopen
  simp only [listFiles, hnames]
  constructor
  · rw [List.pairwise_map]
    unfold shownEntries
    rw [List.pairwise_filterMap]
    have hsorted := sort_entryLess_sorted (readEntries w fe.currentPath names)
    have hflag : ∀ e ∈ sort entryLess (readEntries w fe.currentPath names),
        e.2 = isDirEntry w fe.currentPath e.1 := by
      intro e he
      apply readEntries_flag w fe.currentPath names
      exact (List.perm_insertionSort _ _).subset he
    refine List.Pairwise.imp_of_mem ?_ hsorted
    intro e e' he he' hle x hx x' hx'
    have hx1 : x.1 = e.1 := by
      cases hs : stat w (fe.currentPath ++ "/" ++ e.1) with
      | none => simp [hs] at hx
      | some st => simp [hs] at hx; rw [← hx]
    have hx1' : x'.1 = e'.1 := by
      cases hs : stat w (fe.currentPath ++ "/" ++ e'.1) with
      | none => simp [hs] at hx'
      | some st => simp [hs] at hx'; rw [← hx']
    rw [hx1, hx1', ← hflag e he, ← hflag e' he']
    obtain ⟨en, ed⟩ := e
    obtain ⟨en', ed'⟩ := e'
    cases ed <;> cases ed' <;> simp [entryLess] at hle ⊢
    all_goals exact hle
  · have hrows := shownNames_render detailed
      (shownEntries w fe.currentPath (sort entryLess (readEntries w fe.currentPath names)))
    simp only [shownNames] at hrows ⊢
    rw [List.filterMap_append, List.filterMap_append, List.filterMap_append, hrows]
    cases detailed <;> simp [rowName]

/-- Witness for C5: listing `/home`. -/
theorem listFiles_directories_first_names_ascending_witness :
    (listFiles Example.explorer Example.world false).fe.fileList.Pairwise (fun a b =>
        (isDirEntry Example.world Example.explorer.currentPath b = true →
          isDirEntry Example.world Example.explorer.currentPath a = true) ∧
        (isDirEntry Example.world Example.explorer.currentPath a =
          isDirEntry Example.world Example.explorer.currentPath b → a ≤ b)) ∧
      shownNames (listFiles Example.explorer Example.world false).out =
        (listFiles Example.explorer Example.world false).fe.fileList :=
  listFiles_directories_first_names_ascending Example.explorer Example.world false (by decide)

/-- C6 (the code does not reach the parent): `changeDirectory "/home/docs/"`
is accepted and stores the path as typed, with its trailing slash.  From that
stored path `changeDirectory ".."` computes the candidate `/home/docs`, which
names the very directory the program is in, and stores it: the working
directory has not moved to the parent `/home`. -/
theorem changeDirectory_dotdot_after_trailing_slash :
    (changeDirectory Example.explorer Example.world "/home/docs/").out =
        [.line .green "Changed directory to: /home/docs/"] ∧
      (changeDirectory Example.explorer Example.world "/home/docs/").fe.currentPath
        = "/home/docs/" ∧
      (changeDirectory Example.explorer Example.world "/home/docs/").world.cwd
        = ["home", "docs"] ∧
      candidatePath "/home/docs/" ".." = "/home/docs" ∧
      (changeDirectory (changeDirectory Example.explorer Example.world "/home/docs/").fe
        (changeDirectory Example.explorer Example.world "/home/docs/").world "..").out =
        [.line .green "Changed directory to: /home/docs"] ∧
      (changeDirectory (changeDirectory Example.explorer Example.world "/home/docs/").fe
        (changeDirectory Example.explorer Example.world "/home/docs/").world "..").world.cwd
        = ["home", "docs"] := by
  decide

/-- A scan over characters that do not contain the one looked for finds nothing. -/
theorem find_last_of_aux_of_not_mem (c : Char) :
    ∀ (l : List Char) (i : Nat), c ∉ l → find_last_of_aux c l i = none := by
  intro l
  induction l with
  | nil => intro i _; rfl
  | cons x xs ih =>
    intro i h
    simp only [List.mem_cons, not_or] at h
    have hx : ¬ x = c := fun hxc => h.1 hxc.symm
    simp [find_last_of_aux, ih (i + 1) h.2, hx]

/-- The scan returns the position of an occurrence that no other follows. -/
theorem find_last_of_aux_append (c : Char) (suf : List Char) (hsuf : c ∉ suf) :
    ∀ (pre : List Char) (i : Nat),
      find_last_of_aux c (pre ++ c :: suf) i = some (i + pre.length) := by
  intro pre
  induction pre with
  | nil =>
    intro i
    simp [find_last_of_aux, find_last_of_aux_of_not_mem c suf (i + 1) hsuf]
  | cons x xs ih =>
    intro i
    rw [List.cons_append, find_last_of_aux, ih (i + 1)]
    simp only [List.length_cons, Option.some.injEq]
    omega

/-- Where `changeDirectory ".."` does compute the parent: on a stored path of
the form `parent/name` with a non-empty `parent` and a `name` without slash,
the candidate is `parent`. -/
theorem candidatePath_dotdot_of_parent (parent name : String)
    (hparent : parent ≠ "") (hname : '/' ∉ name.data) :
    candidatePath (parent ++ "/" ++ name) ".." = parent := by
  have hdata : (parent ++ "/" ++ name).data = parent.data ++ '/' :: name.data := by
    simp [String.data_append]
  have hfind : find_last_of (parent ++ "/" ++ name) '/' = some parent.data.length := by
    unfold find_last_of
    rw [hdata, find_last_of_aux_append '/' name.data hname parent.data 0]
    simp
  have hlen : parent.data.length ≠ 0 := by
    intro h0
    apply hparent
    have : parent.data = [] := List.length_eq_zero.mp h0
    exact String.ext this
  unfold candidatePath
  rw [if_pos rfl, hfind]
  simp only [hlen, ne_eq, not_false_eq_true, if_true, substr, hdata, List.drop_zero,
    List.take_left]

/-- From the root, `changeDirectory ".."` keeps the stored path `/`, whatever
the state of the file system. -/
theorem changeDirectory_dotdot_at_root (fe : FileExplorer) (w : World)
    (hroot : fe.currentPath = "/") :
    (changeDirectory fe w "..").fe.currentPath = "/" := by
  have hc : candidatePath fe.currentPath ".." = "/" := by rw [hroot]; decide
  unfold changeDirectory
  simp only [hc]
  split
  · split
    · split <;> rfl
    · exact hroot
  · exact hroot

/-- C7: when the candidate path does not exist or is not a directory,
`changeDirectory` reports the error and returns with the object (so
`currentPath`) and the operating-system state as they were.  The candidate of
an argument other than `..` is the argument itself when it starts with a
slash, and otherwise the argument below `currentPath`. -/
theorem changeDirectory_rejects_non_directory (fe : FileExplorer) (w : World) (path : String)
    (hbad : isDirectory w (candidatePath fe.currentPath path) = false) :
    changeDirectory fe w path = ⟨fe, w, [.line .red "Error: Directory does not exist!"]⟩ ∧
      (changeDirectory fe w path).fe.currentPath = fe.currentPath ∧
      (path ≠ ".." → startsWithSlash path = true →
        candidatePath fe.currentPath path = path) ∧
      (path ≠ ".." → startsWithSlash path = false →
        candidatePath fe.currentPath path = fe.currentPath ++ "/" ++ path) := by
  have h1 : changeDirectory fe w path =
      ⟨fe, w, [.line .red "Error: Directory does not exist!"]⟩ := by
    unfold isDirectory at hbad
    cases hs : stat w (candidatePath fe.currentPath path) with
    | none => simp [changeDirectory, hs]
    | some st =>
      simp only [hs] at hbad
      simp [changeDirectory, hs, hbad]
  refine ⟨h1, by rw [h1], ?_, ?_⟩
  · intro hp hs
    simp [candidatePath, hp, hs]
  · intro hp hs
    simp [candidatePath, hp, hs]

/-- Witness for C7: `a.txt` is a regular file, not a directory. -/
theorem changeDirectory_rejects_non_directory_witness :
    changeDirectory Example.explorer Example.world "a.txt" =
        ⟨Example.explorer, Example.world, [.line .red "Error: Directory does not exist!"]⟩ ∧
      (changeDirectory Example.explorer Example.world "a.txt").fe.currentPath
        = Example.explorer.currentPath ∧
      ("a.txt" ≠ ".." → startsWithSlash "a.txt" = true →
        candidatePath Example.explorer.currentPath "a.txt" = "a.txt") ∧
      ("a.txt" ≠ ".." → startsWithSlash "a.txt" = false →
        candidatePath Example.explorer.currentPath "a.txt"
          = Example.explorer.currentPath ++ "/" ++ "a.txt") :=
  changeDirectory_rejects_non_directory Example.explorer Example.world "a.txt" (by decide)

/-- A scan that finds nothing: the character does not occur. -/
theorem find_last_of_aux_none (c : Char) :
    ∀ (l : List Char) (i : Nat), find_last_of_aux c l i = none → c ∉ l := by
  intro l
  induction l with
  | nil => intro i _; simp
  | cons x xs ih =>
    intro i h
    simp only [find_last_of_aux] at h
    cases hrec : find_last_of_aux c xs (i + 1) with
    | some j => simp [hrec] at h
    | none =>
      simp only [hrec] at h
      have hx : ¬ x = c := by
        intro hxc
        simp [hxc] at h
      have := ih (i + 1) hrec
      simp only [List.mem_cons, not_or]
      exact ⟨fun hcx => hx hcx.symm, this⟩

/-- A scan that finds an index: it is the position of the last occurrence. -/
theorem find_last_of_aux_some (c : Char) :
    ∀ (l : List Char) (i j : Nat), find_last_of_aux c l i = some j →
      ∃ pre suf, l = pre ++ c :: suf ∧ c ∉ suf ∧ j = i + pre.length := by
  intro l
  induction l with
  | nil => intro i j h; simp [find_last_of_aux] at h
  | cons x xs ih =>
    intro i j h
    simp only [find_last_of_aux] at h
    cases hrec : find_last_of_aux c xs (i + 1) with
    | some j2 =>
      simp only [hrec, Option.some.injEq] at h
      obtain ⟨pre, suf, hl, hsuf, hj⟩ := ih (i + 1) j2 hrec
      refine ⟨x :: pre, suf, by simp [hl], hsuf, ?_⟩
      simp only [List.length_cons]
      omega
    | none =>
      simp only [hrec] at h
      by_cases hx : x = c
      · simp only [hx, if_true, Option.some.injEq] at h
        exact ⟨[], xs, by simp [hx], find_last_of_aux_none c xs (i + 1) hrec, by simp [h]⟩
      · simp [hx] at h

/-- The base name `moveFile` uses is the part of `source` after its last
slash: it contains no slash, and it is either all of `source` or what follows
a slash of `source`. -/
theorem sourceName_spec (source : String) :
    '/' ∉ (sourceName source).data ∧
      (source.data = (sourceName source).data ∨
        ∃ pre, source.data = pre ++ '/' :: (sourceName source).data) := by
  unfold sourceName find_last_of
  cases h : find_last_of_aux '/' source.data 0 with
  | none => exact ⟨find_last_of_aux_none '/' _ 0 h, Or.inl rfl⟩
  | some j =>
    obtain ⟨pre, suf, hl, hsuf, hj⟩ := find_last_of_aux_some '/' _ 0 j h
    have hdrop : (substrFrom source (j + 1)).data = suf := by
      simp [substrFrom, hl, hj]
    simp only [hdrop]
    exact ⟨hsuf, Or.inr ⟨pre, hl⟩⟩

/-- The two refusals of `moveFile` on the example machine: `docs/notes.txt`
moved into `docs`, where a file of that name is, and `a.txt` moved onto the
file `a.txt`.  Both report the error and change nothing. -/
theorem moveFile_refusals_example :
    moveFile Example.explorer Example.world "docs/notes.txt" "docs" =
        ⟨Example.explorer, Example.world,
          [.line .red "Error: 'notes.txt' already exists in destination directory!"]⟩ ∧
      moveFile Example.explorer Example.world "a.txt" "a.txt" =
        ⟨Example.explorer, Example.world,
          [.line .red "Error: Destination already exists as a file!"]⟩ := by
  decide

/-- C8 (the code replaces an existing item instead of reporting an error): the
existence tests of `moveFile` are `stat` calls, which fail on a symbolic link
whose target is missing.  Moving `a.txt` into the directory `docs`, where the
composed path `/home/docs/a.txt` is held by such a link, reports no error:
`rename` replaces the link and success is printed.  Moving `a.txt` to the
destination `stale`, an existing entry that is not a directory, reports no
error either and replaces it. -/
theorem moveFile_replaces_dangling_link :
    isDirectory Example.dangling (destinationPath Example.explorer.currentPath "docs") = true ∧
      destinationPath Example.explorer.currentPath "docs" ++ "/" ++ sourceName "a.txt"
        = "/home/docs/a.txt" ∧
      nameExists Example.dangling "/home/docs/a.txt" = true ∧
      lookup Example.dangling.fs ["home", "docs", "a.txt"] = some (.lnk 1000 "gone") ∧
      (moveFile Example.explorer Example.dangling "a.txt" "docs").out =
        [.line .green "File moved successfully to /home/docs/a.txt"] ∧
      lookup (moveFile Example.explorer Example.dangling "a.txt" "docs").world.fs
        ["home", "docs", "a.txt"] = some (.reg 0o644 1000 1000 [104, 101, 108, 108, 111]) ∧
      lookup (moveFile Example.explorer Example.dangling "a.txt" "docs").world.fs
        ["home", "a.txt"] = none ∧
      nameExists Example.dangling (destinationPath Example.explorer.currentPath "stale")
        = true ∧
      isDirectory Example.dangling (destinationPath Example.explorer.currentPath "stale")
        = false ∧
      (moveFile Example.explorer Example.dangling "a.txt" "stale").out =
        [.line .green "File moved successfully to /home/stale"] ∧
      lookup (moveFile Example.explorer Example.dangling "a.txt" "stale").world.fs
        ["home", "stale"] = some (.reg 0o644 1000 1000 [104, 101, 108, 108, 111]) ∧
      lookup (moveFile Example.explorer Example.dangling "a.txt" "stale").world.fs
        ["home", "a.txt"] = none := by
  decide

/-- What `moveFile` does guarantee, with existence read as success of `stat`:
for a source and a resolved destination on which `stat` succeeds, when the
destination is a directory the target is
`destination/base`, where `base` is the part of `source` after its last slash:
if that path exists the error is reported and nothing changes, otherwise the
move proceeds onto exactly that path.  When the destination is not a directory
the error is reported and nothing changes. -/
theorem moveFile_existing_destination (fe : FileExplorer) (w : World)
    (source destination : String) (srcStat destStat : Stat)
    (hsrc : stat w (fe.currentPath ++ "/" ++ source) = some srcStat)
    (hdest : stat w (destinationPath fe.currentPath destination) = some destStat) :
    ('/' ∉ (sourceName source).data ∧
        (source.data = (sourceName source).data ∨
          ∃ pre, source.data = pre ++ '/' :: (sourceName source).data)) ∧
      (S_ISDIR destStat.st_mode = true →
        (stat w (destinationPath fe.currentPath destination ++ "/" ++ sourceName source)).isSome
          = true →
        moveFile fe w source destination =
          ⟨fe, w, [.line .red
            ("Error: '" ++ sourceName source ++ "' already exists in destination directory!")]⟩) ∧
      (S_ISDIR destStat.st_mode = true →
        stat w (destinationPath fe.currentPath destination ++ "/" ++ sourceName source) = none →
        moveFile fe w source destination =
          relocate fe w srcStat (fe.currentPath ++ "/" ++ source)
            (destinationPath fe.currentPath destination ++ "/" ++ sourceName source)) ∧
      (S_ISDIR destStat.st_mode = false →
        moveFile fe w source destination =
          ⟨fe, w, [.line .red "Error: Destination already exists as a file!"]⟩) := by
  unfold destinationPath at hdest ⊢
  refine ⟨sourceName_spec source, ?_, ?_, ?_⟩
  · intro hd hin
    obtain ⟨s3, h3⟩ := Option.isSome_iff_exists.mp hin
    simp only [moveFile, hsrc, hdest, hd, h3, if_true]
  · intro hd hin
    simp only [moveFile, hsrc, hdest, hd, hin, if_true]
  · intro hd
    simp [moveFile, hsrc, hdest, hd]

/-- The guarantee on the example machine: moving `a.txt` into the existing
directory `docs`, where the name is free. -/
theorem moveFile_existing_destination_witness :
    ('/' ∉ (sourceName "a.txt").data ∧
        ("a.txt".data = (sourceName "a.txt").data ∨
          ∃ pre, "a.txt".data = pre ++ '/' :: (sourceName "a.txt").data)) ∧
      (S_ISDIR (Stat.mk 0o40775 1000 1000 0).st_mode = true →
        (stat Example.world
          (destinationPath Example.explorer.currentPath "docs" ++ "/" ++ sourceName "a.txt")).isSome
          = true →
        moveFile Example.explorer Example.world "a.txt" "docs" =
          ⟨Example.explorer, Example.world, [.line .red
            ("Error: '" ++ sourceName "a.txt" ++ "' already exists in destination directory!")]⟩) ∧
      (S_ISDIR (Stat.mk 0o40775 1000 1000 0).st_mode = true →
        stat Example.world
          (destinationPath Example.explorer.currentPath "docs" ++ "/" ++ sourceName "a.txt")
          = none →
        moveFile Example.explorer Example.world "a.txt" "docs" =
          relocate Example.explorer Example.world (Stat.mk 0o100644 1000 1000 5)
            (Example.explorer.currentPath ++ "/" ++ "a.txt")
            (destinationPath Example.explorer.currentPath "docs" ++ "/" ++ sourceName "a.txt")) ∧
      (S_ISDIR (Stat.mk 0o40775 1000 1000 0).st_mode = false →
        moveFile Example.explorer Example.world "a.txt" "docs" =
          ⟨Example.explorer, Example.world,
            [.line .red "Error: Destination already exists as a file!"]⟩) :=
  moveFile_existing_destination Example.explorer Example.world "a.txt" "docs"
    (Stat.mk 0o100644 1000 1000 5) (Stat.mk 0o40775 1000 1000 0) (by decide) (by decide)

/-- On a name that exists, `createDirectory` reports the creation failure and
changes nothing. -/
theorem createDirectory_existing (fe : FileExplorer) (w : World) (dirname : String)
    (h : (stat w (fe.currentPath ++ "/" ++ dirname)).isSome = true) :
    createDirectory fe w dirname = ⟨fe, w, [.line .red "Error: Cannot create directory!"]⟩ := by
  simp [createDirectory, mkdir_existing w _ _ h]

/-- On the name of a regular file the process may write to, `createFile`
reports success and leaves the file empty. -/
theorem createFile_existing_regular (fe : FileExplorer) (w : World) (filename : String)
    (k : Key) (mode uid gid : Nat) (bytes : List Nat)
    (h : resolve w true (fe.currentPath ++ "/" ++ filename) = .found k (.reg mode uid gid bytes))
    (hw : permits w mode uid gid 2 = true) :
    createFile fe w filename =
      ⟨fe, { w with fs := replace w.fs k (.reg mode uid gid []) },
        [.line .green ("File created successfully: " ++ filename)]⟩ := by
  simp [createFile, openWrite, h, hw]

/-- C9 (the code overwrites instead of failing): `createFile` on the name of
the existing five-byte file `a.txt` opens it for writing, which empties it, and
reports success.  `createDirectory` on an existing name does report the
creation failure and changes nothing. -/
theorem createFile_empties_existing_file :
    lookup Example.world.fs ["home", "a.txt"]
        = some (.reg 0o644 1000 1000 [104, 101, 108, 108, 111]) ∧
      (createFile Example.explorer Example.world "a.txt").out =
        [.line .green "File created successfully: a.txt"] ∧
      lookup (createFile Example.explorer Example.world "a.txt").world.fs ["home", "a.txt"]
        = some (.reg 0o644 1000 1000 []) ∧
      createDirectory Example.explorer Example.world "docs" =
        ⟨Example.explorer, Example.world, [.line .red "Error: Cannot create directory!"]⟩ := by
  decide

/-- C10 fails as stated: `changeDirectory "locked"` finds an existing directory,
stores `/home/locked` as the working directory, and then reports an error
because `chdir` is refused on a directory without search permission. -/
theorem changeDirectory_reports_error_after_storing_path :
    (changeDirectory Example.explorer Example.world "locked").out =
        [.line .red "Error: Cannot access directory!"] ∧
      (changeDirectory Example.explorer Example.world "locked").out.any isError = true ∧
      (changeDirectory Example.explorer Example.world "locked").fe.currentPath
        ≠ Example.explorer.currentPath := by
  decide

/-- C10, amended: the seven operations other than `changeDirectory` never
change `currentPath`, whether or not they report an error; when
`changeDirectory` reports an error, either `currentPath` is unchanged, or the
report is `Cannot access directory!`, raised because the candidate is an
existing directory on which `chdir` failed, and `currentPath` is that
candidate; and whenever the candidate is an existing directory on which `chdir`
fails, `changeDirectory` does report `Cannot access directory!` and does store
the candidate, leaving the operating-system state as it was. -/
theorem currentPath_after_error (fe : FileExplorer) (w : World) :
    (∀ detailed, (listFiles fe w detailed).fe.currentPath = fe.currentPath) ∧
      (∀ filename, (createFile fe w filename).fe.currentPath = fe.currentPath) ∧
      (∀ dirname, (createDirectory fe w dirname).fe.currentPath = fe.currentPath) ∧
      (∀ name, (deleteItem fe w name).fe.currentPath = fe.currentPath) ∧
      (∀ source destination,
        (copyFile fe w source destination).fe.currentPath = fe.currentPath) ∧
      (∀ source destination,
        (moveFile fe w source destination).fe.currentPath = fe.currentPath) ∧
      (∀ oldName newName,
        (renameItem fe w oldName newName).fe.currentPath = fe.currentPath) ∧
      (∀ path, (changeDirectory fe w path).out.any isError = true →
        (changeDirectory fe w path).fe.currentPath = fe.currentPath ∨
        ((changeDirectory fe w path).out = [.line .red "Error: Cannot access directory!"] ∧
          isDirectory w (candidatePath fe.currentPath path) = true ∧
          chdir w (candidatePath fe.currentPath path) = none ∧
          (changeDirectory fe w path).fe.currentPath = candidatePath fe.currentPath path)) ∧
      (∀ path, isDirectory w (candidatePath fe.currentPath path) = true →
        chdir w (candidatePath fe.currentPath path) = none →
        changeDirectory fe w path =
          ⟨{ fe with currentPath := candidatePath fe.currentPath path }, w,
            [.line .red "Error: Cannot access directory!"]⟩) := by
  have hrelocate : ∀ (st : Stat) (a b : String),
      (relocate fe w st a b).fe.currentPath = fe.currentPath := by
    intro st a b
    simp only [relocate]
    repeat' split
    all_goals rfl
  refine ⟨?_, ?_, ?_, ?_, ?_, ?_, ?_, ?_, ?_⟩
  · intro detailed
    simp only [listFiles]
    repeat' split
    all_goals rfl
  · intro filename
    simp only [createFile]
    repeat' split
    all_goals rfl
  · intro dirname
    simp only [createDirectory]
    repeat' split
    all_goals rfl
  · intro name
    simp only [deleteItem]
    repeat' split
    all_goals rfl
  · intro source destination
    simp only [copyFile]
    repeat' split
    all_goals rfl
  · intro source destination
    simp only [moveFile]
    repeat' split
    all_goals first | rfl | exact hrelocate _ _ _
  · intro oldName newName
    simp only [renameItem]
    repeat' split
    all_goals rfl
  · intro path herr
    unfold isDirectory
    cases hs : stat w (candidatePath fe.currentPath path) with
    | none =>
      left
      simp [changeDirectory, hs]
    | some st =>
      cases hd : S_ISDIR st.st_mode with
      | false =>
        left
        simp [changeDirectory, hs, hd]
      | true =>
        cases hc : chdir w (candidatePath fe.currentPath path) with
        | some w1 =>
          simp [changeDirectory, hs, hd, hc, isError] at herr
        | none =>
          right
          simp [changeDirectory, hs, hd, hc]
  · intro path hdir hc
    unfold isDirectory at hdir
    cases hs : stat w (candidatePath fe.currentPath path) with
    | none => simp [hs] at hdir
    | some st =>
      simp only [hs] at hdir
      simp [changeDirectory, hs, hdir, hc]

/-- Witness for C10: on the example machine `locked` is an existing directory
on which `chdir` fails, and the call reports the error with `/home/locked`
stored. -/
theorem currentPath_after_error_witness :
    changeDirectory Example.explorer Example.world "locked" =
      ⟨{ Example.explorer with
          currentPath := candidatePath Example.explorer.currentPath "locked" },
        Example.world, [.line .red "Error: Cannot access directory!"]⟩ :=
  (currentPath_after_error Example.explorer Example.world).2.2.2.2.2.2.2.2 "locked"
    (by decide) (by decide)

/-- What `unlink` does to the file system is remove entries. -/
theorem unlink_sublist (w w1 : World) (p : String) (h : unlink w p = some w1) :
    w1.fs.Sublist w.fs := by
  unfold unlink at h
  split at h
  · simp at h
  · split at h
    · simp only [Option.some.injEq] at h
      subst h
      exact List.filter_sublist _
    · simp at h
  · simp at h

/-- What `rmdir` does to the file system is remove entries. -/
theorem rmdir_sublist (w w1 : World) (p : String) (h : rmdir w p = some w1) :
    w1.fs.Sublist w.fs := by
  unfold rmdir at h
  split at h
  · split at h
    · simp at h
    · split at h
      · simp at h
      · split at h
        · simp at h
        · simp only [Option.some.injEq] at h
          subst h
          exact List.filter_sublist _
  · simp at h

/-- The delete loop only removes entries, provided the recursive call does. -/
theorem deleteEntries_sublist (recur : World → String → Bool × World) (path : String)
    (hrecur : ∀ w p, (recur w p).2.fs.Sublist w.fs) :
    ∀ (names : List String) (w : World),
      (deleteEntries recur path names w).2.fs.Sublist w.fs := by
  intro names
  induction names with
  | nil => intro w; exact List.Sublist.refl _
  | cons name rest ih =>
    intro w
    simp only [deleteEntries]
    split
    · exact ih w
    · split
      · split
        · split
          · rename_i w1 hr
            have h1 := hrecur w (path ++ "/" ++ name)
            rw [hr] at h1
            exact (ih w1).trans h1
          · rename_i w1 hr
            have h1 := hrecur w (path ++ "/" ++ name)
            rw [hr] at h1
            exact h1
        · split
          · rename_i w1 hu
            exact (ih w1).trans (unlink_sublist w w1 _ hu)
          · exact List.Sublist.refl _
      · exact ih w

/-- Whatever it returns, `deleteDirectoryRecursive` creates nothing and alters
nothing: the entries of the file system afterwards are entries it had before,
in the same order and with the same contents. -/
theorem deleteDirectoryRecursive_sublist :
    ∀ (depth : Nat) (w : World) (path : String),
      (deleteDirectoryRecursive depth w path).2.fs.Sublist w.fs := by
  intro depth
  induction depth with
  | zero => intro w path; exact List.Sublist.refl _
  | succ d ih =>
    intro w path
    simp only [deleteDirectoryRecursive]
    split
    · exact List.Sublist.refl _
    · rename_i names _
      have hloop := deleteEntries_sublist (deleteDirectoryRecursive d) path ih names w
      split
      · rename_i w1 hl
        rw [hl] at hloop
        split
        · rename_i w2 hr
          exact (rmdir_sublist w1 w2 path hr).trans hloop
        · exact hloop
      · rename_i w1 hl
        rw [hl] at hloop
        exact hloop

/-- C11 (the code deletes outside the tree): `/home/docs` holds a symbolic link
`shared` to the directory `/home/archive`, which is not below `/home/docs`.
`deleteDirectoryRecursive "/home/docs"` takes the link for a directory, because
`stat` follows it, descends through it and unlinks `/home/archive/old.txt`;
`rmdir` on the link then fails and the call returns `false`, leaving
`/home/docs` in place and the file outside it gone.  The same happens through
`deleteItem` once the user confirms. -/
theorem deleteDirectoryRecursive_follows_link_out_of_tree :
    resolve Example.linked false "/home/docs" = .found ["home", "docs"] (.dir 0o775 1000 1000 0) ∧
      lookup Example.linked.fs ["home", "docs", "shared"] = some (.lnk 1000 "/home/archive") ∧
      lookup Example.linked.fs ["home", "archive", "old.txt"]
        = some (.reg 0o644 1000 1000 [111, 108, 100]) ∧
      List.isPrefixOf ["home", "docs"] ["home", "archive", "old.txt"] = false ∧
      (deleteDirectoryRecursive PATH_MAX Example.linked "/home/docs").1 = false ∧
      (deleteDirectoryRecursive PATH_MAX Example.linked "/home/docs").2.fs =
        [([], .dir 0o755 0 0 0),
         (["home"], .dir 0o755 1000 1000 0),
         (["mnt"], .dir 0o777 0 0 1),
         (["home", "a.txt"], .reg 0o644 1000 1000 [104, 101, 108, 108, 111]),
         (["home", "docs"], .dir 0o775 1000 1000 0),
         (["home", "locked"], .dir 0o600 1000 1000 0),
         (["home", "archive"], .dir 0o755 1000 1000 0),
         (["home", "docs", "shared"], .lnk 1000 "/home/archive")] ∧
      lookup (deleteDirectoryRecursive PATH_MAX Example.linked "/home/docs").2.fs
        ["home", "archive", "old.txt"] = none ∧
      (deleteItem Example.explorer Example.linked "docs").out =
        [.line .yellow "Directory is not empty. Delete recursively? (yes/no): ",
         .line .red "Error: Cannot delete directory!"] ∧
      lookup (deleteItem Example.explorer Example.linked "docs").world.fs
        ["home", "archive", "old.txt"] = none := by
  decide

end FileExplorer
